import Mathlib

/-!
Verification of the PDF command-line utilities.

Shallow embedding of the scripts under skills/pdf/scripts:
  check_bounding_boxes.py, fill_pdf_form_with_annotations.py,
  split_pdf.py, fill_fillable_fields.py.

Numbers coming from JSON are modelled as rationals; Python lists and
dictionaries as Lean lists; exceptions and sys.exit as Option or Except.
-/

/-- Axis-aligned bounding box, the four-number list [left, top, right, bottom]
used throughout the scripts, in a stated coordinate space. -/
structure Box where
  left : ℚ
  top : ℚ
  right : ℚ
  bottom : ℚ
deriving DecidableEq

/-- Embeds boxes_intersect from check_bounding_boxes.py (lines 16-30).
A missing (falsy) box is modelled as none and yields false; otherwise the
function returns false when one box lies strictly to one side of the other
and true otherwise. -/
def boxes_intersect (box1 box2 : Option Box) : Bool :=
  match box1, box2 with
  | some b1, some b2 =>
    if b1.right < b2.left ∨ b2.right < b1.left then false
    else if b1.bottom < b2.top ∨ b2.bottom < b1.top then false
    else true
  | _, _ => false

/-- Membership of a point in the closed region of a box. -/
def inBox (b : Box) (p : ℚ × ℚ) : Prop :=
  b.left ≤ p.1 ∧ p.1 ≤ b.right ∧ b.top ≤ p.2 ∧ p.2 ≤ b.bottom

/-- The rectangle invariant assumed of callers (spec section 3). -/
def WellFormedBox (b : Box) : Prop :=
  b.left ≤ b.right ∧ b.top ≤ b.bottom

/-- One form-field record as read by check_bounding_boxes.py: optional label
and entry boxes, optional description (dict.get default is "Field i"), and the
page number (default 1 is applied by the reader, so it is plain here). -/
structure CheckField where
  label_bounding_box : Option Box
  entry_bounding_box : Option Box
  description : Option String
  page_number : ℤ

/-- MIN_HEIGHT constant of check_bounding_boxes.py (line 39). -/
def MIN_HEIGHT : ℚ := 15

/-- Violation messages produced by check_bounding_boxes.py, kept as structured
records carrying the data interpolated into the printed strings. -/
inductive Violation where
  | intersects (page : ℤ) (description : String)
  | tooShort (page : ℤ) (height : ℚ) (description : String)
deriving DecidableEq

/-- One iteration of the loop of check_bounding_boxes (lines 43-57): the
errors this field appends, in order (intersection check, then height check). -/
def fieldErrors (i : ℕ) (field : CheckField) : List Violation :=
  let label_box := field.label_bounding_box
  let entry_box := field.entry_bounding_box
  let description := field.description.getD ("Field " ++ toString i)
  let page := field.page_number
  (if label_box.isSome ∧ entry_box.isSome ∧ boxes_intersect label_box entry_box then
    [Violation.intersects page description]
  else []) ++
  (match entry_box with
   | some e =>
     let height := e.bottom - e.top
     if height < MIN_HEIGHT then [Violation.tooShort page height description] else []
   | none => [])

/-- Error accumulation of check_bounding_boxes (lines 38-57): the errors list
built by the loop over the enumerated field list. -/
def check_errors (form_fields : List CheckField) : List Violation :=
  (form_fields.enum).foldl (fun errs p => errs ++ fieldErrors p.1 p.2) []

/-- Embeds check_bounding_boxes (lines 33-66): the collected violations
together with the boolean result (false on a nonempty error list, true
otherwise). -/
def check_bounding_boxes (form_fields : List CheckField) : List Violation × Bool :=
  if check_errors form_fields ≠ [] then (check_errors form_fields, false)
  else (check_errors form_fields, true)

/-- Recognizes the height violation among the structured messages. -/
def isTooShort : Violation → Bool
  | .tooShort _ _ _ => true
  | _ => false

/-- C3: boxes_intersect is symmetric: for every pair of (optional) boxes,
boxes_intersect A B = boxes_intersect B A. -/
theorem boxes_intersect_comm (box1 box2 : Option Box) :
    boxes_intersect box1 box2 = boxes_intersect box2 box1 := by
  rcases box1 with _ | b1 <;> rcases box2 with _ | b2 <;>
    simp only [boxes_intersect] <;> split_ifs <;> tauto

/-- C2: for well-formed boxes, boxes_intersect returns true iff both boxes are
present and their closed regions share a point (boundary touching included);
it returns false whenever either box is absent. -/
theorem boxes_intersect_iff_overlap (box1 box2 : Option Box)
    (h1 : ∀ b ∈ box1, WellFormedBox b) (h2 : ∀ b ∈ box2, WellFormedBox b) :
    boxes_intersect box1 box2 = true ↔
      ∃ b1 b2, box1 = some b1 ∧ box2 = some b2 ∧
        ∃ p : ℚ × ℚ, inBox b1 p ∧ inBox b2 p := by
  rcases box1 with _ | b1
  · simp [boxes_intersect]
  rcases box2 with _ | b2
  · simp [boxes_intersect]
  obtain ⟨wl1, wt1⟩ := h1 b1 rfl
  obtain ⟨wl2, wt2⟩ := h2 b2 rfl
  simp only [boxes_intersect, Option.some.injEq]
  constructor
  · intro h
    split_ifs at h with hx hy
    push_neg at hx hy
    obtain ⟨hx1, hx2⟩ := hx
    obtain ⟨hy1, hy2⟩ := hy
    refine ⟨b1, b2, rfl, rfl, ⟨(max b1.left b2.left, max b1.top b2.top), ?_, ?_⟩⟩
    · exact ⟨le_max_left _ _, max_le wl1 hx1, le_max_left _ _, max_le wt1 hy1⟩
    · exact ⟨le_max_right _ _, max_le hx2 wl2, le_max_right _ _, max_le hy2 wt2⟩
  · intro h
    obtain ⟨c1, c2, hc1, hc2, p, hp1, hp2⟩ := h
    obtain rfl : b1 = c1 := hc1
    obtain rfl : b2 = c2 := hc2
    simp only [inBox] at hp1 hp2
    obtain ⟨a1, a2, a3, a4⟩ := hp1
    obtain ⟨a5, a6, a7, a8⟩ := hp2
    split_ifs with hx hy
    · rcases hx with h | h <;> exfalso <;> linarith
    · rcases hy with h | h <;> exfalso <;> linarith
    rfl

/-- Witness for C2: two boxes sharing only the corner point (1, 1) intersect. -/
theorem boxes_intersect_iff_overlap_witness :
    boxes_intersect (some ⟨0, 0, 1, 1⟩) (some ⟨1, 1, 2, 2⟩) = true ↔
      ∃ b1 b2, (some (⟨0, 0, 1, 1⟩ : Box)) = some b1 ∧
        (some (⟨1, 1, 2, 2⟩ : Box)) = some b2 ∧
        ∃ p : ℚ × ℚ, inBox b1 p ∧ inBox b2 p :=
  boxes_intersect_iff_overlap (some ⟨0, 0, 1, 1⟩) (some ⟨1, 1, 2, 2⟩)
    (by intro b hb; cases hb; exact ⟨by norm_num, by norm_num⟩)
    (by intro b hb; cases hb; exact ⟨by norm_num, by norm_num⟩)

/-- C4: for a field with an entry box, the loop of check_bounding_boxes reports
a height violation iff bottom - top < MIN_HEIGHT (= 15); the boundary case
where the height equals the threshold is not a violation. -/
theorem entry_height_violation_iff (i : ℕ) (field : CheckField) (e : Box)
    (he : field.entry_bounding_box = some e) :
    ((fieldErrors i field).any isTooShort = true ↔ e.bottom - e.top < MIN_HEIGHT) ∧
      (e.bottom - e.top = MIN_HEIGHT → (fieldErrors i field).any isTooShort = false) := by
  have hmain : (fieldErrors i field).any isTooShort = true ↔
      e.bottom - e.top < MIN_HEIGHT := by
    simp only [fieldErrors, he, List.any_append, Bool.or_eq_true]
    constructor
    · rintro (h | h)
      · split_ifs at h <;> simp [isTooShort] at h
      · split_ifs at h with hlt
        · exact hlt
        · simp at h
    · intro h
      refine Or.inr ?_
      rw [if_pos h]
      simp [isTooShort]
  refine ⟨hmain, fun heq => ?_⟩
  rw [← Bool.not_eq_true]
  intro hc
  have := hmain.mp hc
  rw [heq] at this
  exact lt_irrefl _ this

/-- Witness for C4: a field whose entry box has height 10 < 15 is flagged. -/
theorem entry_height_violation_iff_witness :
    (fieldErrors 0 ⟨none, some ⟨0, 0, 10, 10⟩, some "w", 1⟩).any isTooShort = true :=
  (entry_height_violation_iff 0 ⟨none, some ⟨0, 0, 10, 10⟩, some "w", 1⟩
    ⟨0, 0, 10, 10⟩ rfl).1.mpr (by norm_num [MIN_HEIGHT])

/-- C7: the boolean result of check_bounding_boxes is true iff its violation
list is empty, and on the empty field list it returns no violations and true. -/
theorem check_valid_iff_no_errors (form_fields : List CheckField) :
    ((check_bounding_boxes form_fields).2 = true ↔
      (check_bounding_boxes form_fields).1 = []) ∧
      check_bounding_boxes [] = ([], true) := by
  constructor
  · simp only [check_bounding_boxes]
    split_ifs with h <;> simp_all
  · rfl

/-- One entry of the optional pages list of fill_pdf_form_with_annotations.py:
the pixel dimensions of the rasterized reference image for a page; each key
may be missing (dict.get with the page dimension as default). -/
structure PageInfo where
  image_width : Option ℚ
  image_height : Option ℚ
deriving DecidableEq

/-- Embeds lines 61-68 of fill_pdf_form_with_annotations.py: selection of the
image dimensions (falling back to the page's own dimensions when the page has
no descriptor or the descriptor lacks a key) followed by the two scale-factor
divisions. A zero selected dimension makes the Python division raise
ZeroDivisionError, modelled as none. -/
def computeScales (page_width page_height : ℚ) (page_info : Option PageInfo) :
    Option (ℚ × ℚ) :=
  let info := page_info.getD ⟨none, none⟩
  let img_width := info.image_width.getD page_width
  let img_height := info.image_height.getD page_height
  if img_width = 0 ∨ img_height = 0 then none
  else some (page_width / img_width, page_height / img_height)

/-- The entry_text object of a form field (keys read with dict.get, so each is
optional; defaults "", 12 and "000000" are applied at the use site). -/
structure EntryText where
  text : Option String
  font_size : Option ℚ
  font_color : Option String
deriving DecidableEq

/-- One form-field record as read by fill_pdf_form_with_annotations.py. -/
structure FillField where
  page_number : ℤ
  entry_bounding_box : Option Box
  entry_text : Option EntryText
deriving DecidableEq

/-- Value of one hexadecimal digit, none on any other character. -/
def hexDigitVal (c : Char) : Option ℕ :=
  if '0' ≤ c ∧ c ≤ '9' then some (c.toNat - '0'.toNat)
  else if 'a' ≤ c ∧ c ≤ 'f' then some (c.toNat - 'a'.toNat + 10)
  else if 'A' ≤ c ∧ c ≤ 'F' then some (c.toNat - 'A'.toNat + 10)
  else none

/-- Models reportlab's HexColor applied to the string "#" ++ s (line 101):
the color value int(s, 16); none models the ValueError raised on an empty or
non-hexadecimal string. -/
def hexStringVal (s : String) : Option ℕ :=
  if s.data = [] then none
  else s.data.foldlM (fun acc c => (hexDigitVal c).map fun d => acc * 16 + d) 0

/-- One drawString call recorded with its font and fill-color state. -/
structure DrawOp where
  x : ℚ
  y : ℚ
  text : String
  font_size : ℚ
  color : ℕ
deriving DecidableEq

/-- Embeds lines 79-106 of fill_pdf_form_with_annotations.py: the annotation
drawn for one field, given the page height and the scale factors; none when
the field has no entry box or no entry text (both falsy checks). The color
falls back to HexColor("#000000") when the field's color does not parse. -/
def fieldDrawOp (page_height scale_x scale_y : ℚ) (field : FillField) :
    Option DrawOp :=
  match field.entry_bounding_box, field.entry_text with
  | some entry_box, some entry_text =>
    let left := entry_box.left * scale_x
    let bottom := entry_box.bottom * scale_y
    let pdf_y := page_height - bottom
    let text := entry_text.text.getD ""
    let font_size := entry_text.font_size.getD 12
    let font_color := entry_text.font_color.getD "000000"
    let color :=
      match hexStringVal font_color with
      | some c => c
      | none => (hexStringVal "000000").getD 0
    some ⟨left, pdf_y, text, font_size, color⟩
  | _, _ => none

/-- The overlay built for one page (the loop of lines 79-106): the drawString
calls of the page's fields, in field order. -/
def pageDrawOps (page_height scale_x scale_y : ℚ) (fields : List FillField) :
    List DrawOp :=
  fields.filterMap (fieldDrawOp page_height scale_x scale_y)

/-- C1: for nonzero image dimensions, the scale factors are
page_width / image_width and page_height / image_height, and the anchor drawn
for an entry box is (left * scale_x, page_height - bottom * scale_y); at
page 612 x 792, image 1224 x 1584 and box [100, 125, 280, 142] the anchor
is (50, 721). -/
theorem anchor_formula (page_width page_height img_width img_height : ℚ)
    (b : Box) (et : EntryText) (hw : img_width ≠ 0) (hh : img_height ≠ 0) :
    (computeScales page_width page_height (some ⟨some img_width, some img_height⟩) =
        some (page_width / img_width, page_height / img_height) ∧
      (fieldDrawOp page_height (page_width / img_width) (page_height / img_height)
          ⟨1, some b, some et⟩).map (fun d => (d.x, d.y)) =
        some (b.left * (page_width / img_width),
          page_height - b.bottom * (page_height / img_height))) ∧
    (fieldDrawOp 792 (612 / 1224) (792 / 1584)
        ⟨1, some ⟨100, 125, 280, 142⟩,
          some ⟨some "Johnson", some 14, some "000000"⟩⟩).map
        (fun d => (d.x, d.y)) = some ((50 : ℚ), (721 : ℚ)) := by
  refine ⟨⟨?_, ?_⟩, ?_⟩
  · simp [computeScales, hw, hh]
  · simp [fieldDrawOp]
  · simp only [fieldDrawOp, Option.map_some]
    norm_num

/-- Witness for C1: the concrete reconciliation at scale one half. -/
theorem anchor_formula_witness :
    (fieldDrawOp 792 (612 / 1224) (792 / 1584)
        ⟨1, some ⟨100, 125, 280, 142⟩,
          some ⟨some "Johnson", some 14, some "000000"⟩⟩).map
        (fun d => (d.x, d.y)) = some ((50 : ℚ), (721 : ℚ)) :=
  (anchor_formula 612 792 1224 1584 ⟨100, 125, 280, 142⟩
    ⟨some "Johnson", some 14, some "000000"⟩ (by decide) (by decide)).2

/-- C6 counterexample: a Page Descriptor present with image_width = 0 does not
fall back to scale 1; the scale-factor division fails (ZeroDivisionError),
modelled as none. -/
theorem computeScales_zero_dim_fails :
    computeScales 612 792 (some ⟨some 0, some 1584⟩) = none ∧
      computeScales 612 792 (some ⟨some 0, some 1584⟩) ≠ some (1, 1) := by
  constructor
  · simp [computeScales]
  · simp [computeScales]

/-- C6 amended: when the Page Descriptor is absent, or present without the
dimension keys, and the page's own dimensions are nonzero, the scale factors
are 1 on both axes and the division succeeds; a present descriptor with a
zero image dimension instead makes the division fail. -/
theorem computeScales_fallback (page_width page_height : ℚ)
    (hw : page_width ≠ 0) (hh : page_height ≠ 0) :
    computeScales page_width page_height none = some (1, 1) ∧
      computeScales page_width page_height (some ⟨none, none⟩) = some (1, 1) ∧
      ∀ img_height : ℚ,
        computeScales page_width page_height (some ⟨some 0, some img_height⟩) =
          none := by
  refine ⟨?_, ?_, fun img_height => ?_⟩
  · simp [computeScales, hw, hh, div_self]
  · simp [computeScales, hw, hh, div_self]
  · simp [computeScales]

/-- Witness for C6 amended: the fallback at the letter page size. -/
theorem computeScales_fallback_witness :
    computeScales 612 792 none = some (1, 1) :=
  (computeScales_fallback 612 792 (by decide) (by decide)).1

/-- C9: a field whose font color does not parse is still drawn, with fill
color falling back to pure black (0), and the remaining fields of the page
are still processed. -/
theorem font_color_fallback (page_height scale_x scale_y : ℚ) (pn : ℤ)
    (b : Box) (et : EntryText) (fc : String)
    (hfc : et.font_color = some fc) (hbad : hexStringVal fc = none) :
    ∃ d, fieldDrawOp page_height scale_x scale_y ⟨pn, some b, some et⟩ = some d ∧
      d.color = 0 ∧
      ∀ rest : List FillField,
        pageDrawOps page_height scale_x scale_y (⟨pn, some b, some et⟩ :: rest) =
          d :: pageDrawOps page_height scale_x scale_y rest := by
  have hz : (hexStringVal "000000").getD 0 = 0 := by decide
  refine ⟨_, rfl, ?_, ?_⟩
  · simp only [fieldDrawOp, hfc, Option.getD_some, hbad, hz]
  · intro rest
    simp only [pageDrawOps, List.filterMap_cons]
    rw [show fieldDrawOp page_height scale_x scale_y ⟨pn, some b, some et⟩ =
      some _ from rfl]

/-- Witness for C9: the color string "ZZZZZZ" does not parse and the drawn
annotation gets fill color 0. -/
theorem font_color_fallback_witness :
    ∃ d, fieldDrawOp 792 1 1 ⟨1, some ⟨0, 0, 1, 1⟩,
        some ⟨some "t", some 12, some "ZZZZZZ"⟩⟩ = some d ∧
      d.color = 0 ∧
      ∀ rest : List FillField,
        pageDrawOps 792 1 1 (⟨1, some ⟨0, 0, 1, 1⟩,
            some ⟨some "t", some 12, some "ZZZZZZ"⟩⟩ :: rest) =
          d :: pageDrawOps 792 1 1 rest :=
  font_color_fallback 792 1 1 1 ⟨0, 0, 1, 1⟩
    ⟨some "t", some 12, some "ZZZZZZ"⟩ "ZZZZZZ" rfl (by decide)

/-- Python str.split for a single-character separator: splits on every
occurrence; the empty string yields one empty part. -/
def pySplit (sep : Char) : List Char → List (List Char)
  | [] => [[]]
  | c :: rest =>
    match pySplit sep rest with
    | [] => [[c]]
    | g :: gs => if c = sep then [] :: g :: gs else (c :: g) :: gs

/-- Whitespace stripped by Python str.strip. -/
def isPySpace (c : Char) : Bool :=
  c = ' ' ∨ c = '\t' ∨ c = '\n' ∨ c = '\r'

/-- Python str.strip: drops whitespace at both ends. -/
def pyStrip (s : List Char) : List Char :=
  ((s.dropWhile isPySpace).reverse.dropWhile isPySpace).reverse

/-- Value of one decimal digit, none on any other character. -/
def decDigitVal (c : Char) : Option ℕ :=
  if '0' ≤ c ∧ c ≤ '9' then some (c.toNat - '0'.toNat) else none

/-- Decimal value of a nonempty digit string, none otherwise. -/
def decDigits : List Char → Option ℕ
  | [] => none
  | cs => cs.foldlM (fun acc c => (decDigitVal c).map fun d => acc * 10 + d) 0

/-- Python int on a decimal string: optional surrounding whitespace, optional
sign, then digits (digit grouping underscores are not modelled); none models
the ValueError raised otherwise. -/
def pyInt (s : List Char) : Option ℤ :=
  match pyStrip s with
  | '-' :: rest => (decDigits rest).map fun n => -(n : ℤ)
  | '+' :: rest => (decDigits rest).map fun n => (n : ℤ)
  | s₀ => (decDigits s₀).map fun n => (n : ℤ)

/-- Python range(a, b) over the integers. -/
def intRange (a b : ℤ) : List ℤ :=
  (List.range (b - a).toNat).map fun i => a + i

/-- One iteration of the loop of parse_page_range (split_pdf.py, lines 19-29):
strips the part, treats it as a span when it contains a dash (unpacking the
dash-split into exactly two halves, converting both with int, extending with
range(start - 1, min(stop, total_pages))), and otherwise as a single page
appended only when in range. none models the exceptions int and the unpacking
raise on malformed parts. -/
def processPart (total_pages : ℤ) (pages : List ℤ) (part : List Char) :
    Option (List ℤ) :=
  let part := pyStrip part
  if part.any (fun c => c = '-') then
    match pySplit '-' part with
    | [s, e] =>
      match pyInt s, pyInt e with
      | some start, some stop =>
        some (pages ++ intRange (start - 1) (min stop total_pages))
      | _, _ => none
    | _ => none
  else
    match pyInt part with
    | some p =>
      if 0 ≤ p - 1 ∧ p - 1 < total_pages then some (pages ++ [p - 1])
      else some pages
    | none => none

/-- Embeds parse_page_range (split_pdf.py, lines 16-30): folds the loop body
over the comma-split parts of the range string. -/
def parse_page_range (range_str : List Char) (total_pages : ℤ) :
    Option (List ℤ) :=
  (pySplit ',' range_str).foldlM (processPart total_pages) []

/-- A parsed token of the range expression: a single page or a span. -/
inductive PageToken where
  | single : ℤ → PageToken
  | span : ℤ → ℤ → PageToken
deriving DecidableEq

/-- The token one part denotes, mirroring the parsing steps of processPart. -/
def interpretPart (part : List Char) : Option PageToken :=
  let part := pyStrip part
  if part.any (fun c => c = '-') then
    match pySplit '-' part with
    | [s, e] =>
      match pyInt s, pyInt e with
      | some a, some b => some (PageToken.span a b)
      | _, _ => none
    | _ => none
  else (pyInt part).map PageToken.single

/-- Modelled from the spec (section 4.5): the 0-based indices one token
contributes; a span contributes start - 1 through min(end, total_pages) - 1,
and a single page out of the 1..total_pages range is silently dropped. -/
def specTokenPages (total_pages : ℤ) : PageToken → List ℤ
  | .single n => if 1 ≤ n ∧ n ≤ total_pages then [n - 1] else []
  | .span s e => intRange (s - 1) (min e total_pages)

/-- A part that denotes a token is processed to exactly that token's pages,
appended to the accumulator. -/
theorem processPart_interpret (total_pages : ℤ) (acc : List ℤ)
    (part : List Char) (t : PageToken) (h : interpretPart part = some t) :
    processPart total_pages acc part = some (acc ++ specTokenPages total_pages t) := by
  simp only [interpretPart] at h
  simp only [processPart]
  by_cases hd : (pyStrip part).any (fun c => c = '-') = true
  · rw [if_pos hd] at h ⊢
    cases hsp : pySplit '-' (pyStrip part) with
    | nil => rw [hsp] at h; simp at h
    | cons s rest =>
      cases rest with
      | nil => rw [hsp] at h; simp at h
      | cons e rest2 =>
        cases rest2 with
        | cons x xs => rw [hsp] at h; simp at h
        | nil =>
          rw [hsp] at h
          dsimp only at h ⊢
          cases hs : pyInt s with
          | none => rw [hs] at h; simp at h
          | some a =>
            cases he : pyInt e with
            | none => rw [hs, he] at h; simp at h
            | some b =>
              rw [hs, he] at h
              obtain rfl : PageToken.span a b = t := by
                simpa using h
              dsimp only [specTokenPages]
  · rw [if_neg hd] at h ⊢
    cases hp : pyInt (pyStrip part) with
    | none => rw [hp] at h; simp at h
    | some n =>
      obtain rfl : PageToken.single n = t := by
        rw [hp] at h; simpa using h
      dsimp only [specTokenPages]
      split_ifs with h1 h2 <;> first | rfl | (exfalso; omega) | simp

/-- The fold of processPart over parts that all denote tokens succeeds and
appends every token's pages in order. -/
theorem foldlM_processPart (total_pages : ℤ) (parts : List (List Char))
    (ts : List PageToken) (acc : List ℤ)
    (h : parts.mapM interpretPart = some ts) :
    parts.foldlM (processPart total_pages) acc =
      some (acc ++ ts.flatMap (specTokenPages total_pages)) := by
  induction parts generalizing ts acc with
  | nil =>
    simp only [List.mapM_nil, Option.pure_def, Option.some.injEq] at h
    subst h
    simp
  | cons p ps ih =>
    rw [List.mapM_cons] at h
    cases hp : interpretPart p with
    | none => rw [hp] at h; simp at h
    | some t =>
      rw [hp] at h
      simp only [Option.pure_def, Option.bind_eq_bind, Option.some_bind,
        Option.bind_eq_some, Option.some.injEq] at h
      obtain ⟨ts', hts', rfl⟩ := h
      rw [List.foldlM_cons, processPart_interpret total_pages acc p t hp]
      show List.foldlM (processPart total_pages)
        (acc ++ specTokenPages total_pages t) ps = _
      rw [ih ts' _ hts']
      simp [List.flatMap_cons, List.append_assoc]

/-- C5: when every comma-separated part of the range expression denotes a
token, parse_page_range returns the concatenation, in token order and with no
deduplication or sorting, of the token contributions of the spec: a span
gives start - 1 through min(end, total_pages) - 1 (clamped), a single
out-of-range page is dropped; in particular "1-3,5" at 10 pages gives
[0, 1, 2, 4], "1,3,5" at 4 pages gives [0, 2] and "8-12" at 10 pages gives
[7, 8, 9]. -/
theorem parse_page_range_spec (range_str : List Char) (total_pages : ℤ)
    (ts : List PageToken)
    (h : (pySplit ',' range_str).mapM interpretPart = some ts) :
    parse_page_range range_str total_pages =
        some (ts.flatMap (specTokenPages total_pages)) ∧
      (parse_page_range "1-3,5".data 10 = some [0, 1, 2, 4] ∧
        parse_page_range "1,3,5".data 4 = some [0, 2] ∧
        parse_page_range "8-12".data 10 = some [7, 8, 9]) := by
  refine ⟨?_, by decide, by decide, by decide⟩
  have hfold := foldlM_processPart total_pages (pySplit ',' range_str) ts [] h
  simpa [parse_page_range] using hfold

/-- Witness for C5: the expression "1-3,5" denotes the tokens span 1 3 and
single 5, and parses at 10 total pages to their concatenated contributions. -/
theorem parse_page_range_spec_witness :
    parse_page_range "1-3,5".data 10 =
      some ([PageToken.span 1 3, PageToken.single 5].flatMap (specTokenPages 10)) :=
  (parse_page_range_spec "1-3,5".data 10
    [PageToken.span 1 3, PageToken.single 5] (by decide)).1

/-- One form-field widget annotation of a PDF page: the field name and its
current value. -/
structure Annot where
  name : String
  value : Option String
deriving DecidableEq

/-- Lookup in the Python dict built from the field-value list (line 32):
the last binding of a key wins. -/
def pyDictGet (kvs : List (String × String)) (k : String) : Option String :=
  kvs.foldl (fun acc kv => if kv.1 = k then some kv.2 else acc) none

/-- Iteration order of the keys of that dict: first-occurrence order, without
duplicates. -/
def pyDictKeys : List (String × String) → List String
  | [] => []
  | kv :: rest => kv.1 :: (pyDictKeys rest).filter (fun k => k ≠ kv.1)

/-- Models pypdf's update_page_form_field_values(page, fields,
auto_regenerate=False) (lines 64-68): on the given page, each widget
annotation whose field name is a key of the mapping gets that value; the
other annotations of the page are untouched. -/
def update_page_form_field_values (page : List Annot)
    (values : List (String × String)) : List Annot :=
  page.map fun a =>
    match pyDictGet values a.name with
    | some v => { a with value := some v }
    | none => a

/-- Failure modes of fill_form_fields, each a sys.exit(1) before the output
file is written. -/
inductive FillFieldsError where
  | noFillableFields
  | invalidFieldIds (invalid : List String) (valid : List String)
  | noPages
deriving DecidableEq

/-- Embeds fill_form_fields from fill_fillable_fields.py (lines 25-74).
Inputs: the field catalog (the keys of reader.get_fields()), the page list of
the reader, and the field-value pairs from the JSON. Steps, in code order:
error when the catalog is falsy; collect the value keys absent from the
catalog and error with them and the full catalog when any exist (the code
prints the catalog sorted; it is carried here unsorted, the same set); update
the form-field values on writer.pages[0] only (an empty page list makes that
subscript raise IndexError); return the written pages. -/
def fill_form_fields (catalog : List String) (pages : List (List Annot))
    (field_values : List (String × String)) :
    Except FillFieldsError (List (List Annot)) :=
  if catalog = [] then .error .noFillableFields
  else
    let invalid_fields :=
      (pyDictKeys field_values).filter (fun k => ¬ k ∈ catalog)
    if invalid_fields ≠ [] then
      .error (.invalidFieldIds invalid_fields catalog)
    else
      match pages with
      | [] => .error .noPages
      | p :: rest => .ok (update_page_form_field_values p field_values :: rest)

/-- The dict keys are exactly the first components of the pair list. -/
theorem mem_pyDictKeys (kvs : List (String × String)) (k : String) :
    k ∈ pyDictKeys kvs ↔ k ∈ kvs.map Prod.fst := by
  induction kvs with
  | nil => simp [pyDictKeys]
  | cons kv rest ih =>
    simp only [pyDictKeys, List.mem_cons, List.mem_filter, List.map_cons,
      decide_eq_true_eq, ih]
    by_cases hk : k = kv.1 <;> simp [hk]

/-- C8: when the catalog is nonempty and some field-value key is absent from
it, fill_form_fields fails with exactly the invalid keys (in dict order) and
the full catalog, and no output is produced. -/
theorem fill_invalid_ids_atomic (catalog : List String)
    (pages : List (List Annot)) (field_values : List (String × String))
    (hc : catalog ≠ []) (hbad : ∃ kv ∈ field_values, ¬ kv.1 ∈ catalog) :
    fill_form_fields catalog pages field_values =
        .error (.invalidFieldIds
          ((pyDictKeys field_values).filter (fun k => ¬ k ∈ catalog)) catalog) ∧
      ((pyDictKeys field_values).filter (fun k => ¬ k ∈ catalog)) ≠ [] ∧
      ∀ out, fill_form_fields catalog pages field_values ≠ .ok out := by
  have hne : ((pyDictKeys field_values).filter (fun k => ¬ k ∈ catalog)) ≠ [] := by
    obtain ⟨kv, hkv, hnot⟩ := hbad
    intro hnil
    have hk : kv.1 ∈ pyDictKeys field_values :=
      (mem_pyDictKeys _ _).mpr (List.mem_map_of_mem _ hkv)
    have hmem : kv.1 ∈ (pyDictKeys field_values).filter (fun k => ¬ k ∈ catalog) := by
      rw [List.mem_filter]
      exact ⟨hk, by simpa using hnot⟩
    rw [hnil] at hmem
    exact absurd hmem (List.not_mem_nil _)
  have heq : fill_form_fields catalog pages field_values =
      .error (.invalidFieldIds
        ((pyDictKeys field_values).filter (fun k => ¬ k ∈ catalog)) catalog) := by
    simp only [fill_form_fields]
    rw [if_neg hc, if_pos hne]
  refine ⟨heq, hne, fun out hok => ?_⟩
  rw [heq] at hok
  exact Except.noConfusion hok

/-- Witness for C8: the key "bad" is absent from the catalog ["name"]. -/
theorem fill_invalid_ids_atomic_witness :
    fill_form_fields ["name"] [[]] [("bad", "v")] =
        .error (.invalidFieldIds
          ((pyDictKeys [("bad", "v")]).filter (fun k => ¬ k ∈ ["name"])) ["name"]) ∧
      ((pyDictKeys [("bad", "v")]).filter (fun k => ¬ k ∈ ["name"])) ≠ [] ∧
      ∀ out, fill_form_fields ["name"] [[]] [("bad", "v")] ≠ .ok out :=
  fill_invalid_ids_atomic ["name"] [[]] [("bad", "v")] (by decide)
    ⟨("bad", "v"), by decide, by decide⟩

/-- C10: whenever fill_form_fields succeeds, only the first page is updated:
the output equals the input pages with update_page_form_field_values applied
to page 0, and every other page is returned unchanged. -/
theorem fill_only_first_page (catalog : List String)
    (pages : List (List Annot)) (field_values : List (String × String))
    (out : List (List Annot))
    (h : fill_form_fields catalog pages field_values = .ok out) :
    (∀ i, i ≠ 0 → out[i]? = pages[i]?) ∧
      ∃ p rest, pages = p :: rest ∧
        out = update_page_form_field_values p field_values :: rest := by
  simp only [fill_form_fields] at h
  split_ifs at h with h1 h2
  cases pages with
  | nil => exact Except.noConfusion h
  | cons p rest =>
    simp only [Except.ok.injEq] at h
    subst h
    refine ⟨?_, p, rest, rfl, rfl⟩
    intro i hi
    cases i with
    | zero => exact absurd rfl hi
    | succ n => rfl

/-- Witness for C10: a widget named "a" on the second page keeps its empty
value even though the mapping assigns "a"; only page 0 is updated. -/
theorem fill_only_first_page_witness :
    (∀ i, i ≠ 0 →
        ([[Annot.mk "a" (some "x")], [Annot.mk "a" none]] : List (List Annot))[i]? =
          ([[Annot.mk "a" none], [Annot.mk "a" none]] : List (List Annot))[i]?) ∧
      ∃ p rest,
        ([[Annot.mk "a" none], [Annot.mk "a" none]] : List (List Annot)) = p :: rest ∧
        [[Annot.mk "a" (some "x")], [Annot.mk "a" none]] =
          update_page_form_field_values p [("a", "x")] :: rest :=
  fill_only_first_page ["a"] [[Annot.mk "a" none], [Annot.mk "a" none]]
    [("a", "x")] [[Annot.mk "a" (some "x")], [Annot.mk "a" none]] rfl
